import Mathlib

/-!
A verification development for the QuickScript resumable processing pipeline
(backend/app): the checkpoint store (`checkpoint_service.py`), the transcript
merge and chunked transcription (`transcription_service.py`), and the pipeline
orchestrator (`main.py`).

Modelling conventions:
* Files are finite byte sequences; the filesystem and the checkpoint directory
  are association lists keyed by path/filename, with first-match lookup.
* MD5 digests are modelled by the exact material fed to the hasher
  (a collision-free abstraction of MD5): for a readable file, the pair
  (file size, first-1MB prefix); for the fallback path, the clock value
  observed by `datetime.now().timestamp()`.
* Wall-clock time is an abstract `Nat` tick passed to each operation.
* Python exceptions are `Except String`; a `try/except` that absorbs the
  error is a `match` mapping `.error` to the absorbed result. I/O failures
  (file write, read, JSON parse) are injected through a `Faults` record.
* Python `float` timestamps are modelled as `ℚ`.
-/

namespace QuickScript

/-- Content of one file on disk, as a byte sequence. -/
structure FileData where
  bytes : List Nat
deriving DecidableEq, Repr

/-- The filesystem: an association list from path to file content. -/
abbrev FS := List (String × FileData)

/-- Overwrite (or create) the entry for key `k` in an association list. -/
def listWrite {β : Type} (l : List (String × β)) (k : String) (v : β) :
    List (String × β) :=
  (k, v) :: l.filter (fun kv => kv.1 != k)

/-- Remove the entry for key `k` (models `os.remove`). -/
def listErase {β : Type} (l : List (String × β)) (k : String) :
    List (String × β) :=
  l.filter (fun kv => kv.1 != k)

/-- Models `os.path.exists` over the modelled filesystem. -/
def pathExists (fs : FS) (p : String) : Bool :=
  (List.lookup p fs).isSome

/-- An MD5 digest, modelled by the material fed to the hasher.
`content size pfx` stands for `md5(str(size).encode() + first 1MB of bytes)`;
`fallback t` stands for `md5(str(datetime.now().timestamp()).encode())` where
`t` is the clock value observed by that call. MD5 is treated as injective on
its input material. -/
inductive Digest where
  | content (size : Nat) (pfx : List Nat)
  | fallback (t : Nat)
deriving DecidableEq, Repr

/-- Injected I/O failures for one checkpoint-store operation. -/
structure Faults where
  /-- reading the input file inside `_calculate_file_hash` raises -/
  hashReadFail : Bool
  /-- writing the checkpoint file raises -/
  writeFail : Bool
  /-- reading the checkpoint file raises -/
  readFail : Bool
  /-- `json.loads` on the checkpoint file raises -/
  parseFail : Bool
deriving DecidableEq, Repr

/-- No injected failure. -/
def Faults.none : Faults :=
  { hashReadFail := false, writeFail := false, readFail := false,
    parseFail := false }

/-- Models `CheckpointService._calculate_file_hash`: for a readable file, hash the
file size together with the first 1MB of content; on any failure (missing
file — `os.path.getsize` raises — or a read failure) fall back to a hash of
the current timestamp. -/
def _calculate_file_hash (fs : FS) (now : Nat) (hashReadFail : Bool)
    (file_path : String) : Digest :=
  match List.lookup file_path fs with
  | none => .fallback now
  | some fd =>
    if hashReadFail then .fallback now
    else .content fd.bytes.length (fd.bytes.take (1024 * 1024))

/-- One persisted checkpoint record (the JSON object written to disk),
generic in the payload type of the `data` field. -/
structure Checkpoint (Data : Type) where
  job_id : String
  file_path : String
  file_hash : Digest
  stage : String
  timestamp : Nat
  data : Data
deriving DecidableEq, Repr

/-- The checkpoint directory: filename ↦ parsed checkpoint record. -/
abbrev CkptStore (Data : Type) := List (String × Checkpoint Data)

/-- The filename `f"{job_id}_{stage}.json"` used by save/load. -/
def ckptFileName (job_id stage : String) : String :=
  job_id ++ "_" ++ stage ++ ".json"

/-- The body of `CheckpointService.save_checkpoint`'s `try:` block; `.error`
is a raised exception. -/
def save_checkpoint_attempt {Data : Type} (fs : FS) (store : CkptStore Data)
    (now : Nat) (flt : Faults) (job_id file_path stage : String)
    (data : Data) : Except String (String × CkptStore Data) :=
  let checkpoint_id := job_id ++ "_" ++ stage
  let file_hash := _calculate_file_hash fs now flt.hashReadFail file_path
  let checkpoint : Checkpoint Data :=
    { job_id := job_id, file_path := file_path, file_hash := file_hash,
      stage := stage, timestamp := now, data := data }
  if flt.writeFail then .error "Error saving checkpoint"
  else .ok (checkpoint_id, listWrite store (ckptFileName job_id stage) checkpoint)

/-- Models `CheckpointService.save_checkpoint`: any exception is caught, logged and
mapped to `None` with the store untouched ("continue processing even if
checkpoint fails"). The outer `Except` layer records whether the call itself
raises; the catch-all makes it always `.ok`. -/
def save_checkpoint {Data : Type} (fs : FS) (store : CkptStore Data)
    (now : Nat) (flt : Faults) (job_id file_path stage : String)
    (data : Data) : Except String (Option String × CkptStore Data) :=
  match save_checkpoint_attempt fs store now flt job_id file_path stage data with
  | .ok (cid, store') => .ok (some cid, store')
  | .error _ => .ok (none, store)

/-- The body of `CheckpointService.load_checkpoint`'s `try:` block. -/
def load_checkpoint_attempt {Data : Type} (fs : FS) (store : CkptStore Data)
    (now : Nat) (flt : Faults) (job_id file_path stage : String) :
    Except String (Option Data) :=
  match List.lookup (ckptFileName job_id stage) store with
  | none => .ok none
  | some checkpoint =>
    if flt.readFail then .error "read failed"
    else if flt.parseFail then .error "parse failed"
    else
      let current_hash := _calculate_file_hash fs now flt.hashReadFail file_path
      if checkpoint.file_hash = current_hash then .ok (some checkpoint.data)
      else .ok none

/-- Models `CheckpointService.load_checkpoint`: missing file or digest mismatch give
`None`; any exception is caught and also mapped to `None`. -/
def load_checkpoint {Data : Type} (fs : FS) (store : CkptStore Data)
    (now : Nat) (flt : Faults) (job_id file_path stage : String) :
    Except String (Option Data) :=
  match load_checkpoint_attempt fs store now flt job_id file_path stage with
  | .ok r => .ok r
  | .error _ => .ok none

/-- The deletion condition of `CheckpointService.delete_checkpoints`:
`filename.startswith(f"{job_id}_") and filename.endswith(".json")`. -/
def ckpt_matches (job_id : String) (filename : String) : Bool :=
  filename.startsWith (job_id ++ "_") && filename.endsWith ".json"

/-- The `for filename in os.listdir(...)` loop of
`CheckpointService.delete_checkpoints`, with `rmFail f = true` meaning
`os.remove(f)` raises. `(none, dir)` is a raised exception with `dir` the
directory left behind (the loop stops; earlier removals stand). -/
def delete_checkpoints_go {Data : Type} (job_id : String)
    (rmFail : String → Bool) :
    CkptStore Data → Option Nat × CkptStore Data
  | [] => (some 0, [])
  | kv :: rest =>
    if ckpt_matches job_id kv.1 then
      if rmFail kv.1 then (none, kv :: rest)
      else
        match delete_checkpoints_go job_id rmFail rest with
        | (some c, r) => (some (c + 1), r)
        | (none, r) => (none, r)
    else
      match delete_checkpoints_go job_id rmFail rest with
      | (c, r) => (c, kv :: r)

/-- Models `CheckpointService.delete_checkpoints`: delete every checkpoint file of
one job; any exception is caught and the function returns 0. -/
def delete_checkpoints {Data : Type} (job_id : String)
    (rmFail : String → Bool) (store : CkptStore Data) :
    Nat × CkptStore Data :=
  match delete_checkpoints_go job_id rmFail store with
  | (some c, r) => (c, r)
  | (none, r) => (0, r)

/-- One word-level entry of a transcription segment (timestamps in seconds,
modelled as `ℚ`). -/
structure Word where
  word : String
  start : ℚ
  «end» : ℚ
  probability : ℚ
deriving DecidableEq, Repr

/-- One transcription segment. -/
structure Segment where
  id : Nat
  start : ℚ
  «end» : ℚ
  text : String
  words : List Word
deriving DecidableEq, Repr

/-- A transcription result (the dict produced by `_format_transcription`). -/
structure Transcription where
  text : String
  segments : List Segment
  language : String
deriving DecidableEq, Repr

/-- Shift one word's timestamps by `time_offset`
(`_merge_transcriptions`, word loop). -/
def offsetWord (off : ℚ) (w : Word) : Word :=
  { word := w.word, start := w.start + off, «end» := w.«end» + off,
    probability := w.probability }

/-- The inner segment loop of `_merge_transcriptions`: each appended segment
gets `id = len(merged["segments"])` at the moment of the append (so ids count
up from `baseId`) and all timestamps shifted by `off`. -/
def adjustSegments (baseId : Nat) (off : ℚ) : List Segment → List Segment
  | [] => []
  | s :: rest =>
    { id := baseId, start := s.start + off, «end» := s.«end» + off,
      text := s.text, words := s.words.map (offsetWord off) }
      :: adjustSegments (baseId + 1) off rest

/-- One iteration of the `for i, chunk in enumerate(chunk_results[1:], 1)`
loop of `_merge_transcriptions`: the accumulator is the merged transcription
so far together with the running `time_offset`. -/
def mergeStep (acc : Transcription × ℚ) (chunk : Transcription) :
    Transcription × ℚ :=
  let m := acc.1
  let off := acc.2
  let m' : Transcription :=
    { text := m.text ++ " " ++ chunk.text
      segments := m.segments ++ adjustSegments m.segments.length off chunk.segments
      language := m.language }
  let off' :=
    match chunk.segments.getLast? with
    | some s => off + s.«end»
    | none => off
  (m', off')

/-- Models `TranscriptionService._merge_transcriptions`: start from the first
chunk (offset = its last segment's end, or 0), then fold the remaining chunks
with `mergeStep`. -/
def _merge_transcriptions (chunk_results : List Transcription) : Transcription :=
  match chunk_results with
  | [] => { text := "", segments := [], language := "en" }
  | c :: rest =>
    let merged : Transcription :=
      { text := c.text, segments := c.segments, language := c.language }
    let time_offset : ℚ :=
      match c.segments.getLast? with
      | some s => s.«end»
      | none => 0
    (rest.foldl mergeStep (merged, time_offset)).1

/-- Comparison of adjacent segments by start time: the monotonicity property
asserts `segment[i+1].start >= segment[i].start`. -/
abbrev segLE (a b : Segment) : Prop := a.start ≤ b.start

/-- Well-formedness of one chunk's transcription, as assumed by the merge
monotonicity property: every segment satisfies `0 ≤ start ≤ end` and the
starts are non-decreasing. -/
abbrev ChunkWF (c : Transcription) : Prop :=
  (∀ s ∈ c.segments, 0 ≤ s.start ∧ s.start ≤ s.«end») ∧
  List.Chain' segLE c.segments

/-- Invariant carried through the merge fold: the accumulated segments have
non-decreasing starts, and every accumulated start is at most the running
time offset. -/
def MergeInv (acc : Transcription × ℚ) : Prop :=
  List.Chain' segLE acc.1.segments ∧ ∀ s ∈ acc.1.segments, s.start ≤ acc.2

/-- Models `asyncio.gather` over the per-chunk workers of `_chunked_transcribe`:
all results in chunk-index order, or the exception of a failing worker. -/
def gatherWorkers (workerRes : Nat → Except String Transcription) (n : Nat) :
    Except String (List Transcription) :=
  (List.range n).mapM workerRes

/-- Result of one `_chunked_transcribe` run: the returned value (or raised
`ApplicationError`) and the filesystem left behind. -/
structure ChunkedRun where
  result : Except String Transcription
  fs : FS
deriving Repr

/-- Models `TranscriptionService._chunked_transcribe`: split the audio (the split
outcome is injected; on success the chunk files appear on disk), run the
workers under `asyncio.gather`, merge in index order, then — only after a
successful merge — best-effort delete every chunk file (`rmFail p = true`
meaning `os.remove(p)` raises, swallowed by the bare `except: pass`). A
worker failure propagates out of `gather`, so the function raises before
reaching the cleanup loop. -/
def _chunked_transcribe (fs₀ : FS)
    (splitRes : Except String (List (String × FileData)))
    (workerRes : Nat → Except String Transcription)
    (rmFail : String → Bool) : ChunkedRun :=
  match splitRes with
  | .error e =>
    { result := .error ("Failed to process audio in chunks: " ++ e), fs := fs₀ }
  | .ok chunkFiles =>
    let fs₁ := chunkFiles.foldl (fun fs pd => listWrite fs pd.1 pd.2) fs₀
    let chunks := chunkFiles.map (fun pd => pd.1)
    match gatherWorkers workerRes chunks.length with
    | .error e =>
      { result := .error ("Failed to process audio in chunks: " ++ e), fs := fs₁ }
    | .ok results =>
      let final_result := _merge_transcriptions results
      let fs₂ := chunks.foldl
        (fun fs p => if rmFail p then fs else listErase fs p) fs₁
      { result := .ok final_result, fs := fs₂ }

/-- The per-stage checkpoint payload dicts written by `main.py` and
`media_service.py`, decoded by stage identity:
`{"file_path": ...}`, `{"audio_path": ...}`, the transcription dict itself,
`{"markdown": ...}`, `{"result_path": ..., "transcription": ...}`. -/
inductive StagePayload where
  | downloadData (file_path : String)
  | audioData (audio_path : String)
  | transcriptionData (t : Transcription)
  | markdownData (markdown : String)
  | completeData (result_path : String) (transcription : Transcription)
deriving DecidableEq, Repr

/-- Models `payload.get("result_path", "")`. -/
def StagePayload.resultPathD : StagePayload → String
  | .completeData rp _ => rp
  | _ => ""

/-- Models `payload.get("audio_path", "")`. -/
def StagePayload.audioPathD : StagePayload → String
  | .audioData ap => ap
  | _ => ""

/-- Models `payload.get("file_path", "")`. -/
def StagePayload.filePathD : StagePayload → String
  | .downloadData fp => fp
  | _ => ""

/-- Models `payload.get("markdown")`. -/
def StagePayload.markdownField : StagePayload → Option String
  | .markdownData m => some m
  | _ => none

/-- Decode a payload stored under the `transcription` stage key. -/
def StagePayload.asTranscription : StagePayload → Option Transcription
  | .transcriptionData t => some t
  | _ => none

/-- The mutable record `job_statuses[job_id]`. -/
structure JobRecord where
  status : String
  progress : ℚ
  message : String
  file_path : Option String
  result_path : Option String
deriving DecidableEq, Repr

/-- The world a pipeline run acts on: the filesystem, the checkpoint
directory, and the clock tick observed by the next store operation. -/
structure World where
  fs : FS
  store : CkptStore StagePayload
  now : Nat
deriving DecidableEq, Repr

/-- One invocation of an external stage engine. -/
inductive EngineCall where
  | downloadMedia (url : String)
  | extractAudio (file_path : String)
  | transcribe (audio_path : String)
  | summarize
deriving DecidableEq, Repr

/-- Injected outcomes of the external stage engines (spec §6 boundary):
`media_service.extract_audio`, `transcription_service.transcribe`,
`summarization_service.summarize`, `temp_storage.save_text`. On success,
`extract_audio` returns the audio path and writes `audioFile` there. -/
structure Engines where
  extractRes : Except String String
  audioFile : FileData
  transcribeRes : Except String Transcription
  summarizeRes : Except String String
  saveTextRes : Except String String
deriving Repr

/-- A checkpoint load performed by the orchestrator: the absorbed
`load_checkpoint` result, with the clock advanced. -/
def runLoad (w : World) (flt : Faults) (job_id file_path stage : String) :
    Option StagePayload × World :=
  match load_checkpoint w.fs w.store w.now flt job_id file_path stage with
  | .ok r => (r, { w with now := w.now + 1 })
  | .error _ => (none, { w with now := w.now + 1 })

/-- A checkpoint save performed by the orchestrator. -/
def runSave (w : World) (flt : Faults) (job_id file_path stage : String)
    (data : StagePayload) : Option String × World :=
  match save_checkpoint w.fs w.store w.now flt job_id file_path stage data with
  | .ok (cid, store') => (cid, { w with store := store', now := w.now + 1 })
  | .error _ => (none, { w with now := w.now + 1 })

/-- Outcome of one pipeline run: the final job record, the final world, the
engine calls made, and every value written to the job's `progress` field in
order. -/
structure RunResult where
  job : JobRecord
  world : World
  calls : List EngineCall
  progressWrites : List ℚ
deriving Repr

/-- The `except Exception as e:` block shared by `process_media_file` and
`process_media_url`: status `error`, message `f"Error: {e}"`, and deletion of
the registry record's input artifact (progress is left as it was). -/
def errorResult (job : JobRecord) (w : World) (calls : List EngineCall)
    (pw : List ℚ) (e : String) : RunResult :=
  let jobE := { job with status := "error", message := "Error: " ++ e }
  let wE :=
    match job.file_path with
    | some fp => { w with fs := listErase w.fs fp }
    | none => w
  { job := jobE, world := wE, calls := calls, progressWrites := pw }

/-- Models `complete_checkpoint and os.path.exists(complete_checkpoint.get("result_path", ""))`. -/
def completeHit (fs : FS) : Option StagePayload → Option String
  | some p => if pathExists fs p.resultPathD then some p.resultPathD else none
  | none => none

/-- Models `audio_checkpoint and os.path.exists(audio_checkpoint.get("audio_path", ""))`. -/
def audioRestoreOf (fs : FS) : Option StagePayload → Option String
  | some p => if pathExists fs p.audioPathD then some p.audioPathD else none
  | none => none

/-- Models `markdown_checkpoint and markdown_checkpoint.get("markdown")`
(Python truthiness: a missing or empty string is falsy). -/
def mdRestoreOf : Option StagePayload → Option String
  | some p =>
    match p.markdownField with
    | some m => if m = "" then none else some m
    | none => none
  | none => none

/-- Step 5 of `process_media_file`: progress 0.9, save the markdown via
`temp_storage.save_text`, record the result path, save the `complete`
checkpoint, set status complete / progress 1.0, and delete the temp audio
file when one was created. -/
def finalizeStage (eng : Engines) (flt : Faults)
    (job_id file_path audio_path : String) (transcription : Transcription)
    (markdown : String) (job : JobRecord) (w : World)
    (calls : List EngineCall) (pw : List ℚ) : RunResult :=
  let job₅ := { job with progress := 0.9, message := "Finalizing output..." }
  let pw₅ := pw ++ [0.9]
  match eng.saveTextRes with
  | .error e => errorResult job₅ w calls pw₅ e
  | .ok result_path =>
    let w' := { w with
      fs := listWrite w.fs result_path
        ⟨markdown.toUTF8.toList.map (fun b => b.toNat)⟩ }
    let job₆ := { job₅ with result_path := some result_path }
    let (_, w'') := runSave w' flt job_id file_path "complete"
      (.completeData result_path transcription)
    let job₇ := { job₆ with
      status := "complete"
      progress := 1.0
      message := "Processing complete" }
    let wF := if audio_path = file_path then w''
              else { w'' with fs := listErase w''.fs audio_path }
    { job := job₇, world := wF, calls := calls, progressWrites := pw₅ ++ [1.0] }

/-- Step 4 of `process_media_file`: progress 0.7, markdown checkpoint probe,
else summarize and save the markdown checkpoint. -/
def markdownStage (eng : Engines) (flt : Faults)
    (job_id file_path audio_path : String) (transcription : Transcription)
    (job : JobRecord) (w : World) (calls : List EngineCall) (pw : List ℚ) :
    RunResult :=
  let job₄ := { job with
    progress := 0.7
    message := "Generating structured text..." }
  let pw₄ := pw ++ [0.7]
  let (mc, w₄) := runLoad w flt job_id audio_path "markdown"
  match mdRestoreOf mc with
  | some markdown =>
    finalizeStage eng flt job_id file_path audio_path transcription markdown
      job₄ w₄ calls pw₄
  | none =>
    match eng.summarizeRes with
    | .error e => errorResult job₄ w₄ (calls ++ [.summarize]) pw₄ e
    | .ok markdown =>
      let (_, w₅) := runSave w₄ flt job_id audio_path "markdown"
        (.markdownData markdown)
      finalizeStage eng flt job_id file_path audio_path transcription markdown
        job₄ w₅ (calls ++ [.summarize]) pw₄

/-- The engine branch of step 3: transcribe, then save the transcription
checkpoint. -/
def transcribeEngine (eng : Engines) (flt : Faults)
    (job_id file_path audio_path : String) (job : JobRecord) (w : World)
    (calls : List EngineCall) (pw : List ℚ) : RunResult :=
  match eng.transcribeRes with
  | .error e => errorResult job w (calls ++ [.transcribe audio_path]) pw e
  | .ok transcription =>
    let (_, w') := runSave w flt job_id audio_path "transcription"
      (.transcriptionData transcription)
    markdownStage eng flt job_id file_path audio_path transcription job w'
      (calls ++ [.transcribe audio_path]) pw

/-- Step 3 of `process_media_file`: progress 0.3, transcription checkpoint
probe (the loaded payload is adopted as the transcription), else the engine.
A payload of a different shape at this stage key never occurs in modelled
runs (only `transcriptionData` is ever saved under `transcription`); the
model recomputes in that case. -/
def transcriptionStage (eng : Engines) (flt : Faults)
    (job_id file_path audio_path : String) (job : JobRecord) (w : World)
    (calls : List EngineCall) (pw : List ℚ) : RunResult :=
  let job₃ := { job with progress := 0.3, message := "Transcribing audio..." }
  let pw₃ := pw ++ [0.3]
  let (tc, w₃) := runLoad w flt job_id audio_path "transcription"
  match tc with
  | some p =>
    match p.asTranscription with
    | some transcription =>
      markdownStage eng flt job_id file_path audio_path transcription job₃ w₃
        calls pw₃
    | none =>
      transcribeEngine eng flt job_id file_path audio_path job₃ w₃ calls pw₃
  | none =>
    transcribeEngine eng flt job_id file_path audio_path job₃ w₃ calls pw₃

/-- Step 2 of `process_media_file`: progress 0.2, audio-extraction checkpoint
probe, else the extraction engine (which writes the audio file on success). -/
def process_media_file_body (eng : Engines) (flt : Faults)
    (job_id file_path : String) (job : JobRecord) (w : World)
    (calls : List EngineCall) (pw : List ℚ) : RunResult :=
  let job₂ := { job with progress := 0.2, message := "Extracting audio..." }
  let pw₂ := pw ++ [0.2]
  let (ac, w₂) := runLoad w flt job_id file_path "extract_audio"
  match audioRestoreOf w₂.fs ac with
  | some audio_path =>
    transcriptionStage eng flt job_id file_path audio_path job₂ w₂ calls pw₂
  | none =>
    match eng.extractRes with
    | .error e => errorResult job₂ w₂ (calls ++ [.extractAudio file_path]) pw₂ e
    | .ok audio_path =>
      let w₂' := { w₂ with fs := listWrite w₂.fs audio_path eng.audioFile }
      transcriptionStage eng flt job_id file_path audio_path job₂ w₂'
        (calls ++ [.extractAudio file_path]) pw₂

/-- Models `main.process_media_file`: set status processing / progress 0.1, probe
the terminal `complete` checkpoint (short-circuiting the pipeline on a hit
whose result file still exists), else run steps 2–5. Exceptions from any
stage are absorbed by the `except` block (`errorResult`). -/
def process_media_file (eng : Engines) (flt : Faults)
    (job_id file_path : String) (job₀ : JobRecord) (w₀ : World) : RunResult :=
  let job₁ := { job₀ with
    status := "processing"
    progress := 0.1
    message := "Analyzing media file..." }
  let (cc, w₁) := runLoad w₀ flt job_id file_path "complete"
  match completeHit w₁.fs cc with
  | some result_path =>
    { job := { job₁ with
        result_path := some result_path
        status := "complete"
        progress := 1.0
        message := "Processing complete (restored from checkpoint)" }
      world := w₁
      calls := []
      progressWrites := [0.1, 1.0] }
  | none => process_media_file_body eng flt job_id file_path job₁ w₁ [] [0.1]

/-- Models `media_service.download_media` through its outcome as seen by the orchestrator
(its internal probe/save of the `download_media` checkpoint is part of the
injected engine boundary); on success the downloaded file appears on disk. -/
def process_media_url (eng : Engines) (downloadRes : Except String String)
    (downloadFile : FileData) (flt : Faults) (job_id url : String)
    (job₀ : JobRecord) (w₀ : World) : RunResult :=
  let (cc, w₁) := runLoad w₀ flt job_id url "complete"
  match completeHit w₁.fs cc with
  | some result_path =>
    { job := { job₀ with
        result_path := some result_path
        status := "complete"
        progress := 1.0
        message := "Processing complete (restored from checkpoint)" }
      world := w₁
      calls := []
      progressWrites := [1.0] }
  | none =>
    let job₁ := { job₀ with
      status := "processing"
      progress := 0.1
      message := "Downloading content..." }
    let (dc, w₂) := runLoad w₁ flt job_id url "download_media"
    let dlHit : Option String :=
      match dc with
      | some p => if pathExists w₂.fs p.filePathD then some p.filePathD else none
      | none => none
    match dlHit with
    | some file_path =>
      let job₂ := { job₁ with file_path := some file_path }
      let r := process_media_file eng flt job_id file_path job₂ w₂
      { r with progressWrites := 0.1 :: r.progressWrites }
    | none =>
      match downloadRes with
      | .error e => errorResult job₁ w₂ [.downloadMedia url] [0.1] e
      | .ok file_path =>
        let w₃ := { w₂ with fs := listWrite w₂.fs file_path downloadFile }
        let job₂ := { job₁ with file_path := some file_path }
        let r := process_media_file eng flt job_id file_path job₂ w₃
        { r with
          calls := .downloadMedia url :: r.calls
          progressWrites := 0.1 :: r.progressWrites }

/-- An empty transcription, used by concrete witness runs. -/
def emptyT : Transcription := { text := "", segments := [], language := "en" }

/-- Engine outcomes for a fully successful concrete run. -/
def engOk : Engines :=
  { extractRes := .ok "audio.wav"
    audioFile := ⟨[9]⟩
    transcribeRes := .ok emptyT
    summarizeRes := .ok "# md"
    saveTextRes := .ok "out.md" }

/-- A freshly submitted file job's registry record. -/
def jobW : JobRecord :=
  { status := "queued", progress := 0, message := "Job queued",
    file_path := some "in.mp4", result_path := none }

/-- A world holding the input file and a matching terminal checkpoint whose
result file still exists. -/
def wHit : World :=
  { fs := [("in.mp4", ⟨[7]⟩), ("res.md", ⟨[]⟩)]
    store := [("j_complete.json",
      { job_id := "j", file_path := "in.mp4", file_hash := .content 1 [7],
        stage := "complete", timestamp := 0,
        data := .completeData "res.md" emptyT })]
    now := 0 }

/-- A world holding a terminal checkpoint for a URL job, with a digest that
matches the fallback hash recomputed at the same clock value. -/
def wHitUrl : World :=
  { fs := [("res2.md", ⟨[]⟩)]
    store := [("j_complete.json",
      { job_id := "j", file_path := "http://u", file_hash := .fallback 0,
        stage := "complete", timestamp := 0,
        data := .completeData "res2.md" emptyT })]
    now := 0 }

/-- A world with the input file on disk and no checkpoints. -/
def wMiss : World :=
  { fs := [("in.mp4", ⟨[7]⟩)], store := [], now := 0 }

/-- Error-path postcondition of a pipeline run: registry status `error` with
the captured message, the job's input artifact deleted from disk, and every
checkpoint record present at job start still stored unchanged. -/
def ErrorOutcome (r : RunResult) (file_path e : String)
    (store₀ : CkptStore StagePayload) : Prop :=
  r.job.status = "error" ∧
  r.job.message = "Error: " ++ e ∧
  List.lookup file_path r.world.fs = none ∧
  ∀ key c, List.lookup key store₀ = some c →
    List.lookup key r.world.store = some c

/-- A file of 1MB of zeros followed by one trailing byte `b`: two such files
agree on their size and on their first-1MB prefix whenever they differ only
in `b`. -/
def bigFile (b : Nat) : FileData :=
  ⟨List.replicate (1024 * 1024) 0 ++ [b]⟩

theorem lookup_filter_ne {β : Type} (l : List (String × β)) (k key : String)
    (h : k ≠ key) :
    List.lookup k (l.filter (fun kv => kv.1 != key)) = List.lookup k l := by
  induction l with
  | nil => rfl
  | cons kv rest ih =>
    by_cases hk : kv.1 = key
    · have : (kv.1 != key) = false := by simp [hk]
      simp only [List.filter_cons, this, ih]
      have : (k == kv.1) = false := by
        simp [hk]
        exact fun hkk => h (by simp [hkk, hk])
      simp [List.lookup, this, ih]
    · have : (kv.1 != key) = true := by simp [hk]
      simp only [List.filter_cons, this]
      by_cases hkk : k = kv.1
      · simp [List.lookup, hkk]
      · have hb : (k == kv.1) = false := by simp [hkk]
        simp [List.lookup, hb, ih]

theorem lookup_listWrite_self {β : Type} (l : List (String × β)) (k : String)
    (v : β) : List.lookup k (listWrite l k v) = some v := by
  simp [listWrite, List.lookup]

theorem lookup_listWrite_ne {β : Type} (l : List (String × β)) (k key : String)
    (v : β) (h : k ≠ key) :
    List.lookup k (listWrite l key v) = List.lookup k l := by
  have hb : (k == key) = false := by simp [h]
  simp [listWrite, List.lookup, hb, lookup_filter_ne l k key h]

theorem lookup_listErase_ne {β : Type} (l : List (String × β)) (k key : String)
    (h : k ≠ key) : List.lookup k (listErase l key) = List.lookup k l :=
  lookup_filter_ne l k key h

theorem lookup_listErase_self {β : Type} (l : List (String × β)) (k : String) :
    List.lookup k (listErase l k) = none := by
  induction l with
  | nil => rfl
  | cons kv rest ih =>
    by_cases hk : kv.1 = k
    · have : (kv.1 != k) = false := by simp [hk]
      simpa [listErase, List.filter_cons, this] using ih
    · have ht : (kv.1 != k) = true := by simp [hk]
      have hb : (k == kv.1) = false := by
        simp
        exact fun hkk => hk hkk.symm
      simpa [listErase, List.filter_cons, ht, List.lookup, hb] using ih

/-! ## C1: checkpoint I/O failures are fully absorbed -/

/-- C1. Checkpoint I/O failures are fully absorbed: for every job id, input
reference and stage, `load_checkpoint` never raises — on a missing checkpoint
file, a digest mismatch, or any read/parse failure it returns `None` — and
`save_checkpoint` never raises — on any persistence failure it returns `None`
instead of a checkpoint id, leaving the store untouched. -/
theorem checkpoint_io_never_raises {Data : Type} (fs : FS)
    (store : CkptStore Data) (now : Nat) (flt : Faults)
    (job_id file_path stage : String) (data : Data) :
    (∃ r, save_checkpoint fs store now flt job_id file_path stage data = .ok r) ∧
    (∃ r, @load_checkpoint Data fs store now flt job_id file_path stage
      = .ok r) ∧
    (flt.writeFail = true →
      save_checkpoint fs store now flt job_id file_path stage data
        = .ok (none, store)) ∧
    ((flt.readFail = true ∨ flt.parseFail = true ∨
        List.lookup (ckptFileName job_id stage) store = none ∨
        (∀ c, List.lookup (ckptFileName job_id stage) store = some c →
          c.file_hash ≠ _calculate_file_hash fs now flt.hashReadFail file_path)) →
      @load_checkpoint Data fs store now flt job_id file_path stage
        = .ok none) := by
  refine ⟨?_, ?_, ?_, ?_⟩
  · cases h : flt.writeFail <;>
      simp [save_checkpoint, save_checkpoint_attempt, h]
  · cases h : @load_checkpoint_attempt Data fs store now flt job_id
        file_path stage with
    | ok r => exact ⟨r, by simp [load_checkpoint, h]⟩
    | error e => exact ⟨none, by simp [load_checkpoint, h]⟩
  · intro h
    simp [save_checkpoint, save_checkpoint_attempt, h]
  · rintro (h | h | h | h)
    · cases hl : List.lookup (ckptFileName job_id stage) store with
      | none => simp [load_checkpoint, load_checkpoint_attempt, hl]
      | some c => simp [load_checkpoint, load_checkpoint_attempt, hl, h]
    · cases hl : List.lookup (ckptFileName job_id stage) store with
      | none => simp [load_checkpoint, load_checkpoint_attempt, hl]
      | some c =>
        cases hr : flt.readFail <;>
          simp [load_checkpoint, load_checkpoint_attempt, hl, h, hr]
    · simp [load_checkpoint, load_checkpoint_attempt, h]
    · cases hl : List.lookup (ckptFileName job_id stage) store with
      | none => simp [load_checkpoint, load_checkpoint_attempt, hl]
      | some c =>
        cases hr : flt.readFail <;>
          cases hp : flt.parseFail <;>
            simp [load_checkpoint, load_checkpoint_attempt, hl, hr, hp, h c hl]

/-- Witness for C1 at a concrete instance: with both a write failure and a
parse failure injected, save returns `None` with the store untouched and
load returns `None`. -/
theorem checkpoint_io_never_raises_witness :
    @save_checkpoint Nat [] [("j_s.json",
        { job_id := "j", file_path := "f", file_hash := .fallback 0,
          stage := "s", timestamp := 0, data := 3 })] 1
        { hashReadFail := false, writeFail := true, readFail := false,
          parseFail := true } "j" "f" "s" 7
      = .ok (none, [("j_s.json",
        { job_id := "j", file_path := "f", file_hash := .fallback 0,
          stage := "s", timestamp := 0, data := 3 })]) ∧
    @load_checkpoint Nat [] [("j_s.json",
        { job_id := "j", file_path := "f", file_hash := .fallback 0,
          stage := "s", timestamp := 0, data := 3 })] 1
        { hashReadFail := false, writeFail := true, readFail := false,
          parseFail := true } "j" "f" "s"
      = .ok none := by
  have h := @checkpoint_io_never_raises Nat []
    [("j_s.json",
      { job_id := "j", file_path := "f", file_hash := .fallback 0,
        stage := "s", timestamp := 0, data := 3 })] 1
    { hashReadFail := false, writeFail := true, readFail := false,
      parseFail := true } "j" "f" "s" 7
  exact ⟨h.2.2.1 rfl, h.2.2.2 (Or.inr (Or.inl rfl))⟩

/-! ## C8: checkpoint round-trip -/

/-- C8. Checkpoint round-trip: for every job id, stage and payload, if the
input file exists with the same content at save time and at load time and no
I/O failure is injected, `save_checkpoint` followed by `load_checkpoint`
returns exactly the saved payload (the digest recomputed at load matches the
digest stored at save). -/
theorem checkpoint_round_trip {Data : Type} (fs₁ fs₂ : FS)
    (store : CkptStore Data) (t₁ t₂ : Nat) (job_id file_path stage : String)
    (data : Data) (fd : FileData)
    (h₁ : List.lookup file_path fs₁ = some fd)
    (h₂ : List.lookup file_path fs₂ = some fd) :
    ∃ store',
      save_checkpoint fs₁ store t₁ Faults.none job_id file_path stage data
        = .ok (some (job_id ++ "_" ++ stage), store') ∧
      load_checkpoint fs₂ store' t₂ Faults.none job_id file_path stage
        = .ok (some data) := by
  refine ⟨listWrite store (ckptFileName job_id stage)
    { job_id := job_id
      file_path := file_path
      file_hash := _calculate_file_hash fs₁ t₁ false file_path
      stage := stage
      timestamp := t₁
      data := data }, ?_, ?_⟩
  · simp [save_checkpoint, save_checkpoint_attempt, Faults.none]
  · simp [load_checkpoint, load_checkpoint_attempt, Faults.none,
      lookup_listWrite_self, _calculate_file_hash, h₁, h₂]

/-- Witness for C8 at a concrete instance. -/
theorem checkpoint_round_trip_witness :
    ∃ store',
      @save_checkpoint Nat [("f", ⟨[1, 2]⟩)] [] 0 Faults.none
        "j" "f" "s" 7 = .ok (some ("j" ++ "_" ++ "s"), store') ∧
      load_checkpoint [("f", ⟨[1, 2]⟩)] store' 5 Faults.none "j" "f" "s"
        = .ok (some 7) :=
  checkpoint_round_trip [("f", ⟨[1, 2]⟩)] [("f", ⟨[1, 2]⟩)] [] 0 5 "j" "f" "s"
    7 ⟨[1, 2]⟩ rfl rfl

/-! ## C2: digest sensitivity -/

theorem take_replicate_append (n a : Nat) (l : List Nat) :
    (List.replicate n a ++ l).take n = List.replicate n a := by
  rw [List.take_append_of_le_length (by simp)]
  simp

/-- Whenever the digest computed at save time and the digest recomputed at
load time agree, the later load returns the saved payload. -/
theorem load_after_save_of_digest_eq {Data : Type} (fs₁ fs₂ : FS)
    (store : CkptStore Data) (t₁ t₂ : Nat) (job_id file_path stage : String)
    (data : Data)
    (hd : _calculate_file_hash fs₁ t₁ false file_path
      = _calculate_file_hash fs₂ t₂ false file_path) :
    ∃ store',
      save_checkpoint fs₁ store t₁ Faults.none job_id file_path stage data
        = .ok (some (job_id ++ "_" ++ stage), store') ∧
      load_checkpoint fs₂ store' t₂ Faults.none job_id file_path stage
        = .ok (some data) := by
  refine ⟨listWrite store (ckptFileName job_id stage)
    { job_id := job_id
      file_path := file_path
      file_hash := _calculate_file_hash fs₁ t₁ false file_path
      stage := stage
      timestamp := t₁
      data := data }, ?_, ?_⟩
  · simp [save_checkpoint, save_checkpoint_attempt, Faults.none]
  · simp only [load_checkpoint, load_checkpoint_attempt, lookup_listWrite_self,
      Faults.none]
    rw [if_pos hd]
    rfl

/-- C2 counterexample: two input files whose contents differ (only in the
byte after the 1MB prefix) produce the same digest, so a checkpoint saved
against the first file is still returned by `load_checkpoint` against the
second — the claim that any content change invalidates the checkpoint is
false. -/
theorem digest_prefix_blindspot_cex :
    (bigFile 0).bytes ≠ (bigFile 1).bytes ∧
    ∃ store',
      @save_checkpoint Nat [("f", bigFile 0)] [] 0 Faults.none
        "j" "f" "transcription" 7 = .ok (some ("j" ++ "_" ++ "transcription"), store') ∧
      load_checkpoint [("f", bigFile 1)] store' 1 Faults.none
        "j" "f" "transcription" = .ok (some 7) := by
  have hlen : (bigFile 0).bytes.length = (bigFile 1).bytes.length := by
    show (List.replicate (1024 * 1024) 0 ++ [0]).length
        = (List.replicate (1024 * 1024) 0 ++ [1]).length
    rw [List.length_append, List.length_append, List.length_singleton,
      List.length_singleton]
  have htake : (bigFile 0).bytes.take (1024 * 1024)
      = (bigFile 1).bytes.take (1024 * 1024) := by
    show (List.replicate (1024 * 1024) 0 ++ [0]).take (1024 * 1024)
        = (List.replicate (1024 * 1024) 0 ++ [1]).take (1024 * 1024)
    rw [take_replicate_append, take_replicate_append]
  have hdig : _calculate_file_hash [("f", bigFile 0)] 0 false "f"
      = _calculate_file_hash [("f", bigFile 1)] 1 false "f" := by
    show Digest.content (bigFile 0).bytes.length
        ((bigFile 0).bytes.take (1024 * 1024))
      = Digest.content (bigFile 1).bytes.length
        ((bigFile 1).bytes.take (1024 * 1024))
    rw [hlen, htake]
  constructor
  · intro h
    have h' := congrArg List.getLast? h
    rw [show (bigFile 0).bytes = List.replicate (1024 * 1024) 0 ++ [0] from rfl,
      show (bigFile 1).bytes = List.replicate (1024 * 1024) 0 ++ [1] from rfl,
      List.getLast?_concat, List.getLast?_concat] at h'
    exact absurd (Option.some.inj h') (by decide)
  · exact load_after_save_of_digest_eq [("f", bigFile 0)] [("f", bigFile 1)]
      [] 0 1 "j" "f" "transcription" 7 hdig

/-- C2 amended. Digest sensitivity holds exactly up to the digest policy:
after a save with input file `fd₁`, a load whose input file `fd₂` differs in
size or in the first 1MB of content returns absent (`None`); a difference
confined to content beyond the 1MB prefix (with equal size) is not detected
(see the counterexample). -/
theorem digest_sensitivity_size_or_pfx {Data : Type} (fs₁ fs₂ : FS)
    (store : CkptStore Data) (t₁ t₂ : Nat) (job_id file_path stage : String)
    (data : Data) (fd₁ fd₂ : FileData)
    (h₁ : List.lookup file_path fs₁ = some fd₁)
    (h₂ : List.lookup file_path fs₂ = some fd₂)
    (hdiff : fd₁.bytes.length ≠ fd₂.bytes.length ∨
      fd₁.bytes.take (1024 * 1024) ≠ fd₂.bytes.take (1024 * 1024)) :
    ∃ store',
      save_checkpoint fs₁ store t₁ Faults.none job_id file_path stage data
        = .ok (some (job_id ++ "_" ++ stage), store') ∧
      load_checkpoint fs₂ store' t₂ Faults.none job_id file_path stage
        = .ok none := by
  refine ⟨listWrite store (ckptFileName job_id stage)
    { job_id := job_id
      file_path := file_path
      file_hash := _calculate_file_hash fs₁ t₁ false file_path
      stage := stage
      timestamp := t₁
      data := data }, ?_, ?_⟩
  · simp [save_checkpoint, save_checkpoint_attempt, Faults.none]
  · have hne : _calculate_file_hash fs₁ t₁ false file_path ≠
        _calculate_file_hash fs₂ t₂ false file_path := by
      simp only [_calculate_file_hash, h₁, h₂]
      intro h
      rcases hdiff with hd | hd <;> simp [Digest.content.injEq] at h <;>
        [exact hd h.1; exact hd h.2]
    simp [load_checkpoint, load_checkpoint_attempt, Faults.none,
      lookup_listWrite_self, hne]

/-- Witness for the amended C2: a one-byte file at save time and a two-byte
file at load time make the later load return `None`. -/
theorem digest_sensitivity_size_or_pfx_witness :
    ∃ store',
      @save_checkpoint Nat [("f", ⟨[1]⟩)] [] 0 Faults.none
        "j" "f" "s" 7 = .ok (some ("j" ++ "_" ++ "s"), store') ∧
      load_checkpoint [("f", ⟨[1, 1]⟩)] store' 1 Faults.none "j" "f" "s"
        = .ok none :=
  digest_sensitivity_size_or_pfx [("f", ⟨[1]⟩)] [("f", ⟨[1, 1]⟩)] [] 0 1
    "j" "f" "s" 7 ⟨[1]⟩ ⟨[1, 1]⟩ rfl rfl (by decide)

/-! ## C4: URL digest policy -/

/-- C4 counterexample: for an input that is a URL (no file at that path),
the digest is not a hash of the string — two digest computations of the same
string at different clock ticks differ — and a checkpoint saved for a URL is
not found by a later load with the identical URL: the load recomputes a fresh
timestamp-fallback digest, the comparison fails, and `None` is returned. -/
theorem url_digest_not_string_hash_cex :
    _calculate_file_hash [] 0 false "http://example.com/a.mp4" ≠
      _calculate_file_hash [] 1 false "http://example.com/a.mp4" ∧
    ∃ store',
      @save_checkpoint Nat [] [] 0 Faults.none
        "j" "http://example.com/a.mp4" "complete" 7
        = .ok (some ("j" ++ "_" ++ "complete"), store') ∧
      load_checkpoint [] store' 1 Faults.none
        "j" "http://example.com/a.mp4" "complete" = .ok none := by
  constructor
  · simp [_calculate_file_hash, List.lookup]
  · refine ⟨listWrite [] (ckptFileName "j" "complete")
      { job_id := "j"
        file_path := "http://example.com/a.mp4"
        file_hash := _calculate_file_hash [] 0 false "http://example.com/a.mp4"
        stage := "complete"
        timestamp := 0
        data := 7 }, ?_, ?_⟩
    · simp [save_checkpoint, save_checkpoint_attempt, Faults.none]
    · simp [load_checkpoint, load_checkpoint_attempt, Faults.none,
        lookup_listWrite_self, _calculate_file_hash, List.lookup]

/-- C4 amended. URL digest policy as implemented: for an input reference that
is not a path to an existing file, the digest is the timestamp-based fallback
hash of the clock value observed by that call, so a checkpoint saved for a
URL is found by a later load with the identical URL only when both
computations observe the same clock value; with different clock values the
load returns absent. -/
theorem url_digest_timestamp_fallback {Data : Type} (fs : FS)
    (store : CkptStore Data) (t₁ t₂ : Nat) (job_id url stage : String)
    (data : Data) (hurl : List.lookup url fs = none) :
    _calculate_file_hash fs t₁ false url = .fallback t₁ ∧
    ∃ store',
      save_checkpoint fs store t₁ Faults.none job_id url stage data
        = .ok (some (job_id ++ "_" ++ stage), store') ∧
      (t₁ ≠ t₂ →
        load_checkpoint fs store' t₂ Faults.none job_id url stage = .ok none) ∧
      load_checkpoint fs store' t₁ Faults.none job_id url stage
        = .ok (some data) := by
  refine ⟨by simp [_calculate_file_hash, hurl], ?_⟩
  refine ⟨listWrite store (ckptFileName job_id stage)
    { job_id := job_id
      file_path := url
      file_hash := _calculate_file_hash fs t₁ false url
      stage := stage
      timestamp := t₁
      data := data }, ?_, ?_, ?_⟩
  · simp [save_checkpoint, save_checkpoint_attempt, Faults.none]
  · intro hne
    simp [load_checkpoint, load_checkpoint_attempt, Faults.none,
      lookup_listWrite_self, _calculate_file_hash, hurl, hne]
  · simp [load_checkpoint, load_checkpoint_attempt, Faults.none,
      lookup_listWrite_self, _calculate_file_hash, hurl]

/-- Witness for the amended C4 at a concrete URL and clock values 0 and 1. -/
theorem url_digest_timestamp_fallback_witness :
    _calculate_file_hash [] 0 false "http://u" = .fallback 0 ∧
    ∃ store',
      @save_checkpoint Nat [] [] 0 Faults.none "j" "http://u" "s" 7
        = .ok (some ("j" ++ "_" ++ "s"), store') ∧
      ((0 : Nat) ≠ 1 →
        load_checkpoint [] store' 1 Faults.none "j" "http://u" "s" = .ok none) ∧
      load_checkpoint [] store' 0 Faults.none "j" "http://u" "s"
        = .ok (some 7) :=
  url_digest_timestamp_fallback [] [] 0 1 "j" "http://u" "s" 7 rfl

/-! ## C10: per-job checkpoint deletion -/

theorem delete_checkpoints_go_eq {Data : Type} (job_id : String)
    (rmFail : String → Bool) (store : CkptStore Data)
    (hok : ∀ kv ∈ store, ckpt_matches job_id kv.1 = true → rmFail kv.1 = false) :
    delete_checkpoints_go job_id rmFail store
      = (some (store.filter (fun kv => ckpt_matches job_id kv.1)).length,
         store.filter (fun kv => !(ckpt_matches job_id kv.1))) := by
  induction store with
  | nil => simp [delete_checkpoints_go]
  | cons kv rest ih =>
    have hrest : ∀ x ∈ rest, ckpt_matches job_id x.1 = true → rmFail x.1 = false :=
      fun x hx => hok x (List.mem_cons_of_mem _ hx)
    by_cases hm : ckpt_matches job_id kv.1 = true
    · have hrm : rmFail kv.1 = false := hok kv (List.mem_cons_self _ _) hm
      simp [delete_checkpoints_go, hm, hrm, ih hrest, List.filter_cons]
    · simp only [Bool.not_eq_true] at hm
      simp [delete_checkpoints_go, hm, ih hrest, List.filter_cons]

/-- C10. Per-job checkpoint deletion is frame-preserving: provided no removal
fails, `delete_checkpoints job_id` removes exactly the files whose name
starts with `job_id ++ "_"` and ends with `".json"`, returns their number,
and leaves every other file of the checkpoint directory unchanged (in
particular any file whose name does not have `job_id ++ "_"` as a prefix
survives). -/
theorem delete_checkpoints_frame {Data : Type} (job_id : String)
    (rmFail : String → Bool) (store : CkptStore Data)
    (hok : ∀ kv ∈ store, ckpt_matches job_id kv.1 = true → rmFail kv.1 = false) :
    (delete_checkpoints job_id rmFail store).1
      = (store.filter (fun kv => ckpt_matches job_id kv.1)).length ∧
    (delete_checkpoints job_id rmFail store).2
      = store.filter (fun kv => !(ckpt_matches job_id kv.1)) ∧
    (∀ kv, kv ∈ (delete_checkpoints job_id rmFail store).2 ↔
      kv ∈ store ∧ ckpt_matches job_id kv.1 = false) ∧
    (∀ kv ∈ store, kv.1.startsWith (job_id ++ "_") = false →
      kv ∈ (delete_checkpoints job_id rmFail store).2) := by
  have h := delete_checkpoints_go_eq job_id rmFail store hok
  have h1 : delete_checkpoints job_id rmFail store
      = ((store.filter (fun kv => ckpt_matches job_id kv.1)).length,
         store.filter (fun kv => !(ckpt_matches job_id kv.1))) := by
    simp [delete_checkpoints, h]
  refine ⟨by rw [h1], by rw [h1], ?_, ?_⟩
  · intro kv
    rw [h1]
    simp [List.mem_filter]
  · intro kv hkv hpre
    rw [h1]
    simp only [List.mem_filter]
    refine ⟨hkv, ?_⟩
    simp [ckpt_matches, hpre]

/-- Witness for C10: a directory with one matching checkpoint, one belonging
to another job, and one non-JSON file. -/
theorem delete_checkpoints_frame_witness :
    (@delete_checkpoints Nat "j" (fun _ => false)
        [("j_a.json", ⟨"j", "f", .fallback 0, "a", 0, 1⟩),
         ("k_b.json", ⟨"k", "f", .fallback 0, "b", 0, 2⟩),
         ("j_c.txt", ⟨"j", "f", .fallback 0, "c", 0, 3⟩)]).1
      = ([("j_a.json", (⟨"j", "f", .fallback 0, "a", 0, 1⟩ : Checkpoint Nat)),
          ("k_b.json", ⟨"k", "f", .fallback 0, "b", 0, 2⟩),
          ("j_c.txt", ⟨"j", "f", .fallback 0, "c", 0, 3⟩)].filter
            (fun kv => ckpt_matches "j" kv.1)).length ∧
    (@delete_checkpoints Nat "j" (fun _ => false)
        [("j_a.json", ⟨"j", "f", .fallback 0, "a", 0, 1⟩),
         ("k_b.json", ⟨"k", "f", .fallback 0, "b", 0, 2⟩),
         ("j_c.txt", ⟨"j", "f", .fallback 0, "c", 0, 3⟩)]).2
      = [("j_a.json", (⟨"j", "f", .fallback 0, "a", 0, 1⟩ : Checkpoint Nat)),
         ("k_b.json", ⟨"k", "f", .fallback 0, "b", 0, 2⟩),
         ("j_c.txt", ⟨"j", "f", .fallback 0, "c", 0, 3⟩)].filter
           (fun kv => !(ckpt_matches "j" kv.1)) :=
  ⟨(delete_checkpoints_frame "j" (fun _ => false) _ (fun _ _ _ => rfl)).1,
   (delete_checkpoints_frame "j" (fun _ => false) _ (fun _ _ _ => rfl)).2.1⟩

/-! ## C7: chunk temp-file cleanup -/

theorem lookup_cleanup_fold_none (rmFail : String → Bool) :
    ∀ (chunks : List String) (fs : FS) (p : String),
      List.lookup p fs = none →
      List.lookup p (chunks.foldl
        (fun fs q => if rmFail q then fs else listErase fs q) fs) = none := by
  intro chunks
  induction chunks with
  | nil => intro fs p h; simpa using h
  | cons q rest ih =>
    intro fs p h
    simp only [List.foldl_cons]
    apply ih
    by_cases hq : rmFail q
    · simpa [hq] using h
    · simp only [hq, Bool.false_eq_true, if_false]
      by_cases hpq : p = q
      · subst hpq; exact lookup_listErase_self fs p
      · rw [lookup_listErase_ne fs p q hpq]; exact h

theorem lookup_cleanup_fold_of_mem (rmFail : String → Bool) :
    ∀ (chunks : List String) (fs : FS) (p : String), p ∈ chunks →
      rmFail p = false →
      List.lookup p (chunks.foldl
        (fun fs q => if rmFail q then fs else listErase fs q) fs) = none := by
  intro chunks
  induction chunks with
  | nil => intro fs p hp; exact absurd hp (List.not_mem_nil p)
  | cons q rest ih =>
    intro fs p hp hrm
    rcases List.mem_cons.mp hp with rfl | hp'
    · simp only [List.foldl_cons, hrm, Bool.false_eq_true, if_false]
      exact lookup_cleanup_fold_none rmFail rest _ p (lookup_listErase_self fs p)
    · simp only [List.foldl_cons]
      exact ih _ p hp' hrm

theorem lookup_write_fold_isSome :
    ∀ (files : List (String × FileData)) (fs : FS) (p : String),
      (p ∈ files.map (fun pd => pd.1) ∨ (List.lookup p fs).isSome = true) →
      (List.lookup p (files.foldl
        (fun fs pd => listWrite fs pd.1 pd.2) fs)).isSome = true := by
  intro files
  induction files with
  | nil =>
    intro fs p h
    rcases h with h | h
    · exact absurd h (by simp)
    · simpa using h
  | cons pd rest ih =>
    intro fs p h
    simp only [List.foldl_cons]
    apply ih
    rcases h with h | h
    · simp only [List.map_cons, List.mem_cons] at h
      rcases h with rfl | h'
      · right
        rw [lookup_listWrite_self]
        rfl
      · left
        exact h'
    · by_cases hpq : p = pd.1
      · right
        subst hpq
        rw [lookup_listWrite_self]
        rfl
      · right
        rw [lookup_listWrite_ne _ _ _ _ hpq]
        exact h

/-- C7 counterexample: in a chunked run where the second chunk\'s worker
raises, the whole operation fails and the cleanup loop is never reached —
both chunk temp files are still on disk afterwards. The claim that chunk
artifacts are removed regardless of individual chunk failure is false. -/
theorem chunk_cleanup_skipped_on_failure_cex :
    (_chunked_transcribe [] (.ok [("c0", ⟨[0]⟩), ("c1", ⟨[1]⟩)])
        (fun i => if i = 0 then .ok ⟨"", [], "en"⟩ else .error "boom")
        (fun _ => false)).result
      = .error ("Failed to process audio in chunks: " ++ "boom") ∧
    List.lookup "c0"
      (_chunked_transcribe [] (.ok [("c0", ⟨[0]⟩), ("c1", ⟨[1]⟩)])
        (fun i => if i = 0 then .ok ⟨"", [], "en"⟩ else .error "boom")
        (fun _ => false)).fs = some ⟨[0]⟩ ∧
    List.lookup "c1"
      (_chunked_transcribe [] (.ok [("c0", ⟨[0]⟩), ("c1", ⟨[1]⟩)])
        (fun i => if i = 0 then .ok ⟨"", [], "en"⟩ else .error "boom")
        (fun _ => false)).fs = some ⟨[1]⟩ := by
  refine ⟨?_, ?_, ?_⟩ <;> rfl

/-- C7 amended. Chunk temp-file cleanup happens only on the success path: if
every chunk worker succeeds, the merge result is returned and every chunk
file whose removal does not itself fail is deleted (removal failures are
swallowed); if any worker raises, the whole chunked operation fails and no
cleanup is performed — every chunk file written by the split is still on
disk. -/
theorem chunk_cleanup_success_only (fs₀ : FS)
    (chunkFiles : List (String × FileData))
    (workerRes : Nat → Except String Transcription) (rmFail : String → Bool) :
    (∀ results,
      gatherWorkers workerRes chunkFiles.length = .ok results →
      (_chunked_transcribe fs₀ (.ok chunkFiles) workerRes rmFail).result
          = .ok (_merge_transcriptions results) ∧
      (∀ p ∈ chunkFiles.map (fun pd => pd.1), rmFail p = false →
        List.lookup p
          (_chunked_transcribe fs₀ (.ok chunkFiles) workerRes rmFail).fs
          = none)) ∧
    (∀ e,
      gatherWorkers workerRes chunkFiles.length = .error e →
      (_chunked_transcribe fs₀ (.ok chunkFiles) workerRes rmFail).result
          = .error ("Failed to process audio in chunks: " ++ e) ∧
      (∀ p ∈ chunkFiles.map (fun pd => pd.1),
        (List.lookup p
          (_chunked_transcribe fs₀ (.ok chunkFiles) workerRes rmFail).fs).isSome
          = true)) := by
  constructor
  · intro results hg
    have hrun : _chunked_transcribe fs₀ (.ok chunkFiles) workerRes rmFail
        = { result := .ok (_merge_transcriptions results)
            fs := (chunkFiles.map (fun pd => pd.1)).foldl
              (fun fs p => if rmFail p then fs else listErase fs p)
              (chunkFiles.foldl (fun fs pd => listWrite fs pd.1 pd.2) fs₀) } := by
      simp [_chunked_transcribe, hg]
    refine ⟨by rw [hrun], ?_⟩
    intro p hp hrm
    rw [hrun]
    exact lookup_cleanup_fold_of_mem rmFail _ _ p hp hrm
  · intro e hg
    have hrun : _chunked_transcribe fs₀ (.ok chunkFiles) workerRes rmFail
        = { result := .error ("Failed to process audio in chunks: " ++ e)
            fs := chunkFiles.foldl (fun fs pd => listWrite fs pd.1 pd.2) fs₀ } := by
      simp [_chunked_transcribe, hg]
    refine ⟨by rw [hrun], ?_⟩
    intro p hp
    rw [hrun]
    exact lookup_write_fold_isSome chunkFiles fs₀ p (Or.inl hp)

/-- Witness for the amended C7: a successful single-chunk run deletes its
chunk file. -/
theorem chunk_cleanup_success_only_witness :
    (_chunked_transcribe [] (.ok [("c0", ⟨[0]⟩)])
        (fun _ => .ok ⟨"", [], "en"⟩) (fun _ => false)).result
      = .ok (_merge_transcriptions [⟨"", [], "en"⟩]) ∧
    List.lookup "c0"
      (_chunked_transcribe [] (.ok [("c0", ⟨[0]⟩)])
        (fun _ => .ok ⟨"", [], "en"⟩) (fun _ => false)).fs = none := by
  have h := (chunk_cleanup_success_only [] [("c0", ⟨[0]⟩)]
    (fun _ => .ok ⟨"", [], "en"⟩) (fun _ => false)).1 [⟨"", [], "en"⟩] rfl
  exact ⟨h.1, h.2 "c0" (by simp) rfl⟩

/-! ## C3: merged-transcript timestamps are monotonic -/

theorem chain'_adjustSegments (off : ℚ) :
    ∀ (l : List Segment) (b : Nat), List.Chain' segLE l →
      List.Chain' segLE (adjustSegments b off l)
  | [], _, _ => by simp [adjustSegments]
  | [s], b, h => by simp [adjustSegments]
  | s :: s' :: rest, b, h => by
    rw [List.chain'_cons] at h
    have ih := chain'_adjustSegments off (s' :: rest) (b + 1) h.2
    simp only [adjustSegments] at ih ⊢
    rw [List.chain'_cons]
    exact ⟨add_le_add_right h.1 off, ih⟩

theorem mem_adjustSegments (off : ℚ) :
    ∀ (l : List Segment) (b : Nat) (s' : Segment),
      s' ∈ adjustSegments b off l → ∃ s ∈ l, s'.start = s.start + off
  | [], _, s', h => absurd h (by simp [adjustSegments])
  | s :: rest, b, s', h => by
    simp only [adjustSegments, List.mem_cons] at h
    rcases h with rfl | h
    · exact ⟨s, List.mem_cons_self _ _, rfl⟩
    · obtain ⟨t, ht, hts⟩ := mem_adjustSegments off rest (b + 1) s' h
      exact ⟨t, List.mem_cons_of_mem _ ht, hts⟩

theorem start_le_getLast :
    ∀ (l : List Segment), List.Chain' segLE l →
      ∀ s ∈ l, ∀ last, l.getLast? = some last → s.start ≤ last.start
  | [], _, s, hs, _, _ => absurd hs (List.not_mem_nil s)
  | [a], _, s, hs, last, hl => by
    simp only [List.mem_singleton] at hs
    simp only [List.getLast?_singleton, Option.some.injEq] at hl
    rw [hs, ← hl]
  | a :: b :: rest, h, s, hs, last, hl => by
    rw [List.chain'_cons] at h
    have hl' : (b :: rest).getLast? = some last := by
      rwa [List.getLast?_cons_cons] at hl
    rcases List.mem_cons.mp hs with rfl | hs'
    · calc s.start ≤ b.start := h.1
        _ ≤ last.start :=
          start_le_getLast (b :: rest) h.2 b (List.mem_cons_self _ _) last hl'
    · exact start_le_getLast (b :: rest) h.2 s hs' last hl'

theorem mergeStep_inv (acc : Transcription × ℚ) (c : Transcription)
    (hacc : MergeInv acc) (hc : ChunkWF c) : MergeInv (mergeStep acc c) := by
  obtain ⟨hchain, hball⟩ := hacc
  obtain ⟨hwf, hcchain⟩ := hc
  constructor
  · show List.Chain' segLE
      (acc.1.segments ++ adjustSegments acc.1.segments.length acc.2 c.segments)
    rw [List.chain'_append]
    refine ⟨hchain, chain'_adjustSegments _ _ _ hcchain, ?_⟩
    intro x hx y hy
    cases hseg : c.segments with
    | nil => rw [hseg] at hy; simp [adjustSegments] at hy
    | cons c₀ ct =>
      rw [hseg] at hy
      simp only [adjustSegments, List.head?_cons, Option.mem_def,
        Option.some.injEq] at hy
      have hx' : x ∈ acc.1.segments := List.mem_of_mem_getLast? hx
      have h0 : 0 ≤ c₀.start := by
        have := hwf c₀ (by rw [hseg]; exact List.mem_cons_self _ _)
        exact this.1
      have : x.start ≤ acc.2 := hball x hx'
      show x.start ≤ y.start
      rw [← hy]
      show x.start ≤ c₀.start + acc.2
      linarith
  · show ∀ s ∈ acc.1.segments ++
        adjustSegments acc.1.segments.length acc.2 c.segments,
      s.start ≤ (match c.segments.getLast? with
        | some s => acc.2 + s.«end»
        | none => acc.2)
    intro s hs
    cases hlast : c.segments.getLast? with
    | none =>
      have hempty : c.segments = [] := List.getLast?_eq_none_iff.mp hlast
      rw [hempty] at hs
      simp only [adjustSegments, List.append_nil] at hs
      exact hball s hs
    | some lastC =>
      have hlmem : lastC ∈ c.segments := List.mem_of_mem_getLast? hlast
      have hl0 : 0 ≤ lastC.start := (hwf lastC hlmem).1
      have hl1 : lastC.start ≤ lastC.«end» := (hwf lastC hlmem).2
      show s.start ≤ acc.2 + lastC.«end»
      rcases List.mem_append.mp hs with hold | hnew
      · have := hball s hold
        linarith
      · obtain ⟨t, ht, hts⟩ := mem_adjustSegments _ _ _ _ hnew
        have : t.start ≤ lastC.start := start_le_getLast _ hcchain t ht lastC hlast
        rw [hts]
        linarith

theorem foldl_mergeStep_inv :
    ∀ (l : List Transcription) (acc : Transcription × ℚ), MergeInv acc →
      (∀ c ∈ l, ChunkWF c) → MergeInv (l.foldl mergeStep acc)
  | [], _, h, _ => h
  | c :: rest, acc, h, hl => by
    simp only [List.foldl_cons]
    exact foldl_mergeStep_inv rest _
      (mergeStep_inv acc c h (hl c (List.mem_cons_self _ _)))
      (fun d hd => hl d (List.mem_cons_of_mem _ hd))

/-- C3. Merged-transcript timestamps are globally monotonic: for every
non-empty list of chunk transcriptions whose segments each satisfy
`0 ≤ start ≤ end` with non-decreasing starts, the merge (which re-offsets
each subsequent chunk's segment and word timestamps by the cumulative
end-time of all prior chunks' last segment) yields a segment list in which
every adjacent pair — including pairs across chunk boundaries — has
non-decreasing starts. -/
theorem merged_timestamps_monotonic (chunk_results : List Transcription)
    (hne : chunk_results ≠ [])
    (hwf : ∀ c ∈ chunk_results, ChunkWF c) :
    List.Chain' segLE (_merge_transcriptions chunk_results).segments := by
  cases chunk_results with
  | nil => exact absurd rfl hne
  | cons c rest =>
    have hc := hwf c (List.mem_cons_self _ _)
    have hinv₀ : MergeInv
        ({ text := c.text, segments := c.segments, language := c.language },
          match c.segments.getLast? with
          | some s => s.«end»
          | none => 0) := by
      constructor
      · exact hc.2
      · intro s hs
        show s.start ≤ (match c.segments.getLast? with
          | some s => s.«end»
          | none => 0)
        cases hlast : c.segments.getLast? with
        | none =>
          have hempty : c.segments = [] := List.getLast?_eq_none_iff.mp hlast
          rw [hempty] at hs
          exact absurd hs (List.not_mem_nil s)
        | some lastS =>
          calc s.start ≤ lastS.start := start_le_getLast _ hc.2 s hs lastS hlast
            _ ≤ lastS.«end» := (hc.1 lastS (List.mem_of_mem_getLast? hlast)).2
    have h := foldl_mergeStep_inv rest _ hinv₀
      (fun d hd => hwf d (List.mem_cons_of_mem _ hd))
    simpa [_merge_transcriptions] using h.1

/-- Witness for C3: two one-segment chunks. -/
theorem merged_timestamps_monotonic_witness :
    List.Chain' segLE (_merge_transcriptions
      [⟨"a", [⟨0, 0, 2, "a", []⟩], "en"⟩,
       ⟨"b", [⟨0, 1, 3, "b", []⟩], "en"⟩]).segments := by
  apply merged_timestamps_monotonic
  · simp
  · intro c hc
    simp only [List.mem_cons, List.not_mem_nil, or_false] at hc
    rcases hc with rfl | rfl
    · exact ⟨by intro s hs; simp at hs; rw [hs]; norm_num,
        List.chain'_singleton _⟩
    · exact ⟨by intro s hs; simp at hs; rw [hs]; norm_num,
        List.chain'_singleton _⟩

/-! ## Orchestrator run lemmas -/

theorem runLoad_miss (w : World) (flt : Faults) (j f st : String)
    (h : List.lookup (ckptFileName j st) w.store = none) :
    runLoad w flt j f st = (none, { w with now := w.now + 1 }) := by
  simp [runLoad, load_checkpoint, load_checkpoint_attempt, h]

theorem runLoad_world (w : World) (flt : Faults) (j f st : String) :
    (runLoad w flt j f st).2 = { w with now := w.now + 1 } := by
  cases h : load_checkpoint w.fs w.store w.now flt j f st with
  | ok r => simp [runLoad, h]
  | error e => simp [runLoad, h]

theorem runSave_faultless (w : World) (j f st : String) (d : StagePayload) :
    runSave w Faults.none j f st d
      = (some (j ++ "_" ++ st),
        { w with
          store := listWrite w.store (ckptFileName j st)
            { job_id := j
              file_path := f
              file_hash := _calculate_file_hash w.fs w.now false f
              stage := st
              timestamp := w.now
              data := d }
          now := w.now + 1 }) := by
  simp [runSave, save_checkpoint, save_checkpoint_attempt, Faults.none]

theorem ckptFileName_stage_inj {j a b : String}
    (h : ckptFileName j a = ckptFileName j b) : a = b := by
  have hd : (j ++ "_" ++ a ++ ".json").data = (j ++ "_" ++ b ++ ".json").data := by
    have := congrArg String.data h
    simpa [ckptFileName] using this
  simp only [String.data_append, List.append_assoc] at hd
  have h2 := List.append_cancel_left hd
  have h3 := List.append_cancel_left h2
  have h4 := List.append_cancel_right h3
  exact String.ext h4

theorem ckptFileName_ne {j a b : String} (h : a ≠ b) :
    ckptFileName j a ≠ ckptFileName j b :=
  fun he => h (ckptFileName_stage_inj he)

/-! ## C5: terminal-checkpoint fast path -/

/-- C5. Terminal-checkpoint fast path: for every job (both the file pipeline
and the URL pipeline), the orchestrator first probes the `complete`
checkpoint for the job id and input reference, and when that probe returns a
payload whose result path still exists on disk, the job's status is set
directly to `complete` with progress 1.0 and the result path adopted, with no
stage-engine invocation (no download, extraction, transcription or
summarization call). -/
theorem terminal_checkpoint_fast_path (eng : Engines) (flt : Faults)
    (job_id file_path : String) (job₀ : JobRecord) (w₀ : World)
    (p : StagePayload)
    (hload : load_checkpoint w₀.fs w₀.store w₀.now flt job_id file_path
      "complete" = .ok (some p))
    (hexists : pathExists w₀.fs p.resultPathD = true)
    (durl : Except String String) (dfile : FileData) (url : String)
    (job₀' : JobRecord) (w₀' : World) (p' : StagePayload)
    (hload' : load_checkpoint w₀'.fs w₀'.store w₀'.now flt job_id url
      "complete" = .ok (some p'))
    (hexists' : pathExists w₀'.fs p'.resultPathD = true) :
    ((process_media_file eng flt job_id file_path job₀ w₀).calls = [] ∧
     (process_media_file eng flt job_id file_path job₀ w₀).job.status
        = "complete" ∧
     (process_media_file eng flt job_id file_path job₀ w₀).job.progress = 1.0 ∧
     (process_media_file eng flt job_id file_path job₀ w₀).job.result_path
        = some p.resultPathD ∧
     (process_media_file eng flt job_id file_path job₀ w₀).world.store
        = w₀.store) ∧
    ((process_media_url eng durl dfile flt job_id url job₀' w₀').calls = [] ∧
     (process_media_url eng durl dfile flt job_id url job₀' w₀').job.status
        = "complete" ∧
     (process_media_url eng durl dfile flt job_id url job₀' w₀').job.progress
        = 1.0 ∧
     (process_media_url eng durl dfile flt job_id url job₀' w₀').job.result_path
        = some p'.resultPathD ∧
     (process_media_url eng durl dfile flt job_id url job₀' w₀').world.store
        = w₀'.store) := by
  constructor
  · simp [process_media_file, runLoad, hload, completeHit, hexists]
  · simp [process_media_url, runLoad, hload', completeHit, hexists']

/-- Witness for C5 at concrete worlds with matching terminal checkpoints. -/
theorem terminal_checkpoint_fast_path_witness :
    ((process_media_file engOk Faults.none "j" "in.mp4" jobW wHit).calls = [] ∧
     (process_media_file engOk Faults.none "j" "in.mp4" jobW wHit).job.status
        = "complete" ∧
     (process_media_file engOk Faults.none "j" "in.mp4" jobW wHit).job.progress
        = 1.0 ∧
     (process_media_file engOk Faults.none "j" "in.mp4" jobW wHit).job.result_path
        = some "res.md" ∧
     (process_media_file engOk Faults.none "j" "in.mp4" jobW wHit).world.store
        = wHit.store) ∧
    ((process_media_url engOk (.ok "dl.mp4") ⟨[]⟩ Faults.none "j" "http://u"
        jobW wHitUrl).calls = [] ∧
     (process_media_url engOk (.ok "dl.mp4") ⟨[]⟩ Faults.none "j" "http://u"
        jobW wHitUrl).job.status = "complete" ∧
     (process_media_url engOk (.ok "dl.mp4") ⟨[]⟩ Faults.none "j" "http://u"
        jobW wHitUrl).job.progress = 1.0 ∧
     (process_media_url engOk (.ok "dl.mp4") ⟨[]⟩ Faults.none "j" "http://u"
        jobW wHitUrl).job.result_path = some "res2.md" ∧
     (process_media_url engOk (.ok "dl.mp4") ⟨[]⟩ Faults.none "j" "http://u"
        jobW wHitUrl).world.store = wHitUrl.store) :=
  terminal_checkpoint_fast_path engOk Faults.none "j" "in.mp4" jobW wHit
    (.completeData "res.md" emptyT) rfl (by decide)
    (.ok "dl.mp4") ⟨[]⟩ "http://u" jobW wHitUrl
    (.completeData "res2.md" emptyT) rfl (by decide)

/-! ## C9: progress sequence -/

/-- C9 amended. Progress sequence: an uninterrupted, fault-free run of the
file pipeline with no pre-existing checkpoints writes exactly the progress
values 0.1, 0.2, 0.3, 0.7, 0.9, 1.0 in that order (the code also writes 0.2
at the "Extracting audio..." step, which the claimed sequence omits), ends
with status `complete`, and invokes the three stage engines in order. -/
theorem progress_sequence_with_extract_step (eng : Engines)
    (job_id file_path ap : String) (t : Transcription) (md rp : String)
    (job₀ : JobRecord) (w₀ : World)
    (hC : List.lookup (ckptFileName job_id "complete") w₀.store = none)
    (hA : List.lookup (ckptFileName job_id "extract_audio") w₀.store = none)
    (hT : List.lookup (ckptFileName job_id "transcription") w₀.store = none)
    (hM : List.lookup (ckptFileName job_id "markdown") w₀.store = none)
    (hE : eng.extractRes = .ok ap)
    (hTr : eng.transcribeRes = .ok t)
    (hS : eng.summarizeRes = .ok md)
    (hF : eng.saveTextRes = .ok rp) :
    (process_media_file eng Faults.none job_id file_path job₀ w₀).progressWrites
      = [0.1, 0.2, 0.3, 0.7, 0.9, 1.0] ∧
    (process_media_file eng Faults.none job_id file_path job₀ w₀).job.status
      = "complete" ∧
    (process_media_file eng Faults.none job_id file_path job₀ w₀).job.progress
      = 1.0 ∧
    (process_media_file eng Faults.none job_id file_path job₀ w₀).calls
      = [.extractAudio file_path, .transcribe ap, .summarize] := by
  have hMT : ckptFileName job_id "markdown" ≠ ckptFileName job_id "transcription" :=
    ckptFileName_ne (by decide)
  refine ⟨?_, ?_, ?_, ?_⟩ <;>
    simp [process_media_file, process_media_file_body, transcriptionStage,
      transcribeEngine, markdownStage, finalizeStage, completeHit,
      audioRestoreOf, mdRestoreOf, runLoad_miss, runSave_faultless,
      lookup_listWrite_ne, hMT, hC, hA, hT, hM, hE, hTr, hS, hF]

/-- C9 counterexample: a fully successful concrete run writes the progress
sequence 0.1, 0.2, 0.3, 0.7, 0.9, 1.0 — not the claimed 0.1, 0.3, 0.7, 0.9,
1.0 (the 0.2 write at "Extracting audio..." is missing from the claim). -/
theorem progress_sequence_cex :
    (process_media_file engOk Faults.none "j" "in.mp4" jobW wMiss).progressWrites
      ≠ [0.1, 0.3, 0.7, 0.9, 1.0] ∧
    (process_media_file engOk Faults.none "j" "in.mp4" jobW wMiss).progressWrites
      = [0.1, 0.2, 0.3, 0.7, 0.9, 1.0] := by
  have hMT : ckptFileName "j" "markdown" ≠ ckptFileName "j" "transcription" :=
    ckptFileName_ne (by decide)
  have hrun : (process_media_file engOk Faults.none "j" "in.mp4" jobW
      wMiss).progressWrites = [0.1, 0.2, 0.3, 0.7, 0.9, 1.0] := by
    simp [process_media_file, process_media_file_body, transcriptionStage,
      transcribeEngine, markdownStage, finalizeStage, completeHit,
      audioRestoreOf, mdRestoreOf, runLoad_miss, runSave_faultless,
      lookup_listWrite_ne, hMT, engOk, wMiss]
  refine ⟨?_, hrun⟩
  rw [hrun]
  intro h
  rw [List.cons.injEq, List.cons.injEq] at h
  have h2 : (0.2 : ℚ) = 0.3 := h.2.1
  norm_num at h2

/-- Witness for the amended C9 at a concrete fault-free run. -/
theorem progress_sequence_with_extract_step_witness :
    (process_media_file engOk Faults.none "j" "in.mp4" jobW wMiss).progressWrites
      = [0.1, 0.2, 0.3, 0.7, 0.9, 1.0] ∧
    (process_media_file engOk Faults.none "j" "in.mp4" jobW wMiss).job.status
      = "complete" ∧
    (process_media_file engOk Faults.none "j" "in.mp4" jobW wMiss).job.progress
      = 1.0 ∧
    (process_media_file engOk Faults.none "j" "in.mp4" jobW wMiss).calls
      = [.extractAudio "in.mp4", .transcribe "audio.wav", .summarize] :=
  progress_sequence_with_extract_step engOk "j" "in.mp4" "audio.wav" emptyT
    "# md" "out.md" jobW wMiss rfl rfl rfl rfl rfl rfl rfl rfl

/-! ## C6: stage-failure semantics -/

/-- C6. Stage-failure semantics: for a job whose stages actually run (no
pre-existing checkpoints) under fault-free checkpoint I/O, if any stage
engine raises, the remaining stages are not invoked, the registry status
becomes `error` with the captured message, the job's input artifact is
deleted, and no checkpoint record present at job start — nor one written for
an earlier-completed stage of this run — is removed or modified. -/
theorem stage_failure_semantics (eng : Engines) (job_id file_path : String)
    (e : String) (job₀ : JobRecord) (w₀ : World)
    (hfp : job₀.file_path = some file_path)
    (hC : List.lookup (ckptFileName job_id "complete") w₀.store = none)
    (hA : List.lookup (ckptFileName job_id "extract_audio") w₀.store = none)
    (hT : List.lookup (ckptFileName job_id "transcription") w₀.store = none)
    (hM : List.lookup (ckptFileName job_id "markdown") w₀.store = none) :
    (eng.extractRes = .error e →
      ErrorOutcome (process_media_file eng Faults.none job_id file_path job₀ w₀)
        file_path e w₀.store ∧
      (process_media_file eng Faults.none job_id file_path job₀ w₀).calls
        = [.extractAudio file_path]) ∧
    (∀ ap, eng.extractRes = .ok ap → eng.transcribeRes = .error e →
      ErrorOutcome (process_media_file eng Faults.none job_id file_path job₀ w₀)
        file_path e w₀.store ∧
      (process_media_file eng Faults.none job_id file_path job₀ w₀).calls
        = [.extractAudio file_path, .transcribe ap]) ∧
    (∀ ap t, eng.extractRes = .ok ap → eng.transcribeRes = .ok t →
      eng.summarizeRes = .error e →
      ErrorOutcome (process_media_file eng Faults.none job_id file_path job₀ w₀)
        file_path e w₀.store ∧
      (process_media_file eng Faults.none job_id file_path job₀ w₀).calls
        = [.extractAudio file_path, .transcribe ap, .summarize] ∧
      (∃ ck, List.lookup (ckptFileName job_id "transcription")
          (process_media_file eng Faults.none job_id file_path job₀ w₀).world.store
        = some ck ∧ ck.data = .transcriptionData t)) ∧
    (∀ ap t md, eng.extractRes = .ok ap → eng.transcribeRes = .ok t →
      eng.summarizeRes = .ok md → eng.saveTextRes = .error e →
      ErrorOutcome (process_media_file eng Faults.none job_id file_path job₀ w₀)
        file_path e w₀.store ∧
      (process_media_file eng Faults.none job_id file_path job₀ w₀).calls
        = [.extractAudio file_path, .transcribe ap, .summarize] ∧
      (∃ ck, List.lookup (ckptFileName job_id "transcription")
          (process_media_file eng Faults.none job_id file_path job₀ w₀).world.store
        = some ck ∧ ck.data = .transcriptionData t) ∧
      (∃ ck, List.lookup (ckptFileName job_id "markdown")
          (process_media_file eng Faults.none job_id file_path job₀ w₀).world.store
        = some ck ∧ ck.data = .markdownData md)) := by
  have hMT : ckptFileName job_id "markdown" ≠ ckptFileName job_id "transcription" :=
    ckptFileName_ne (by decide)
  have hTM : ckptFileName job_id "transcription" ≠ ckptFileName job_id "markdown" :=
    ckptFileName_ne (by decide)
  refine ⟨?_, ?_, ?_, ?_⟩
  · intro hE
    refine ⟨⟨?_, ?_, ?_, ?_⟩, ?_⟩
    · simp [process_media_file, process_media_file_body, completeHit,
        audioRestoreOf, runLoad_miss, hC, hA, hE, errorResult, hfp]
    · simp [process_media_file, process_media_file_body, completeHit,
        audioRestoreOf, runLoad_miss, hC, hA, hE, errorResult, hfp]
    · simp [process_media_file, process_media_file_body, completeHit,
        audioRestoreOf, runLoad_miss, hC, hA, hE, errorResult, hfp,
        lookup_listErase_self]
    · intro key c hkey
      simpa [process_media_file, process_media_file_body, completeHit,
        audioRestoreOf, runLoad_miss, hC, hA, hE, errorResult, hfp]
        using hkey
    · simp [process_media_file, process_media_file_body, completeHit,
        audioRestoreOf, runLoad_miss, hC, hA, hE, errorResult, hfp]
  · intro ap hE hTr
    refine ⟨⟨?_, ?_, ?_, ?_⟩, ?_⟩
    · simp [process_media_file, process_media_file_body, transcriptionStage,
        transcribeEngine, completeHit, audioRestoreOf, runLoad_miss, hC, hA,
        hT, hE, hTr, errorResult, hfp]
    · simp [process_media_file, process_media_file_body, transcriptionStage,
        transcribeEngine, completeHit, audioRestoreOf, runLoad_miss, hC, hA,
        hT, hE, hTr, errorResult, hfp]
    · simp [process_media_file, process_media_file_body, transcriptionStage,
        transcribeEngine, completeHit, audioRestoreOf, runLoad_miss, hC, hA,
        hT, hE, hTr, errorResult, hfp, lookup_listErase_self]
    · intro key c hkey
      simpa [process_media_file, process_media_file_body, transcriptionStage,
        transcribeEngine, completeHit, audioRestoreOf, runLoad_miss, hC, hA,
        hT, hE, hTr, errorResult, hfp] using hkey
    · simp [process_media_file, process_media_file_body, transcriptionStage,
        transcribeEngine, completeHit, audioRestoreOf, runLoad_miss, hC, hA,
        hT, hE, hTr, errorResult, hfp]
  · intro ap t hE hTr hS
    have hkeyfacts : True := trivial
    refine ⟨⟨?_, ?_, ?_, ?_⟩, ?_, ?_⟩
    · simp [process_media_file, process_media_file_body, transcriptionStage,
        transcribeEngine, markdownStage, completeHit, audioRestoreOf,
        mdRestoreOf, runLoad_miss, runSave_faultless, lookup_listWrite_ne,
        hMT, hC, hA, hT, hM, hE, hTr, hS, errorResult, hfp]
    · simp [process_media_file, process_media_file_body, transcriptionStage,
        transcribeEngine, markdownStage, completeHit, audioRestoreOf,
        mdRestoreOf, runLoad_miss, runSave_faultless, lookup_listWrite_ne,
        hMT, hC, hA, hT, hM, hE, hTr, hS, errorResult, hfp]
    · simp [process_media_file, process_media_file_body, transcriptionStage,
        transcribeEngine, markdownStage, completeHit, audioRestoreOf,
        mdRestoreOf, runLoad_miss, runSave_faultless, lookup_listWrite_ne,
        hMT, hC, hA, hT, hM, hE, hTr, hS, errorResult, hfp,
        lookup_listErase_self]
    · intro key c hkey
      have hkT : key ≠ ckptFileName job_id "transcription" := by
        intro hk
        rw [hk, hT] at hkey
        exact Option.noConfusion hkey
      simp [process_media_file, process_media_file_body, transcriptionStage,
        transcribeEngine, markdownStage, completeHit, audioRestoreOf,
        mdRestoreOf, runLoad_miss, runSave_faultless, lookup_listWrite_ne,
        hMT, hkT, hC, hA, hT, hM, hE, hTr, hS, errorResult, hfp, hkey]
    · simp [process_media_file, process_media_file_body, transcriptionStage,
        transcribeEngine, markdownStage, completeHit, audioRestoreOf,
        mdRestoreOf, runLoad_miss, runSave_faultless, lookup_listWrite_ne,
        hMT, hC, hA, hT, hM, hE, hTr, hS, errorResult, hfp]
    · simp [process_media_file, process_media_file_body, transcriptionStage,
        transcribeEngine, markdownStage, completeHit, audioRestoreOf,
        mdRestoreOf, runLoad_miss, runSave_faultless, lookup_listWrite_self,
        lookup_listWrite_ne, hMT, hC, hA, hT, hM, hE, hTr, hS, errorResult,
        hfp]
  · intro ap t md hE hTr hS hF
    refine ⟨⟨?_, ?_, ?_, ?_⟩, ?_, ?_, ?_⟩
    · simp [process_media_file, process_media_file_body, transcriptionStage,
        transcribeEngine, markdownStage, finalizeStage, completeHit,
        audioRestoreOf, mdRestoreOf, runLoad_miss, runSave_faultless,
        lookup_listWrite_ne, hMT, hC, hA, hT, hM, hE, hTr, hS, hF,
        errorResult, hfp]
    · simp [process_media_file, process_media_file_body, transcriptionStage,
        transcribeEngine, markdownStage, finalizeStage, completeHit,
        audioRestoreOf, mdRestoreOf, runLoad_miss, runSave_faultless,
        lookup_listWrite_ne, hMT, hC, hA, hT, hM, hE, hTr, hS, hF,
        errorResult, hfp]
    · simp [process_media_file, process_media_file_body, transcriptionStage,
        transcribeEngine, markdownStage, finalizeStage, completeHit,
        audioRestoreOf, mdRestoreOf, runLoad_miss, runSave_faultless,
        lookup_listWrite_ne, hMT, hC, hA, hT, hM, hE, hTr, hS, hF,
        errorResult, hfp, lookup_listErase_self]
    · intro key c hkey
      have hkT : key ≠ ckptFileName job_id "transcription" := by
        intro hk
        rw [hk, hT] at hkey
        exact Option.noConfusion hkey
      have hkM : key ≠ ckptFileName job_id "markdown" := by
        intro hk
        rw [hk, hM] at hkey
        exact Option.noConfusion hkey
      simp [process_media_file, process_media_file_body, transcriptionStage,
        transcribeEngine, markdownStage, finalizeStage, completeHit,
        audioRestoreOf, mdRestoreOf, runLoad_miss, runSave_faultless,
        lookup_listWrite_ne, hMT, hkT, hkM, hC, hA, hT, hM, hE, hTr, hS, hF,
        errorResult, hfp, hkey]
    · simp [process_media_file, process_media_file_body, transcriptionStage,
        transcribeEngine, markdownStage, finalizeStage, completeHit,
        audioRestoreOf, mdRestoreOf, runLoad_miss, runSave_faultless,
        lookup_listWrite_ne, hMT, hC, hA, hT, hM, hE, hTr, hS, hF,
        errorResult, hfp]
    · simp [process_media_file, process_media_file_body, transcriptionStage,
        transcribeEngine, markdownStage, finalizeStage, completeHit,
        audioRestoreOf, mdRestoreOf, runLoad_miss, runSave_faultless,
        lookup_listWrite_self, lookup_listWrite_ne, hMT, hTM, hC, hA, hT, hM,
        hE, hTr, hS, hF, errorResult, hfp]
    · simp [process_media_file, process_media_file_body, transcriptionStage,
        transcribeEngine, markdownStage, finalizeStage, completeHit,
        audioRestoreOf, mdRestoreOf, runLoad_miss, runSave_faultless,
        lookup_listWrite_self, lookup_listWrite_ne, hMT, hC, hA, hT, hM,
        hE, hTr, hS, hF, errorResult, hfp]

/-- Witness for C6: extraction failure at a concrete world. -/
theorem stage_failure_semantics_witness :
    ErrorOutcome (process_media_file { engOk with extractRes := .error "boom" }
        Faults.none "j" "in.mp4" jobW wMiss) "in.mp4" "boom" wMiss.store ∧
    (process_media_file { engOk with extractRes := .error "boom" }
        Faults.none "j" "in.mp4" jobW wMiss).calls = [.extractAudio "in.mp4"] :=
  (stage_failure_semantics { engOk with extractRes := .error "boom" }
    "j" "in.mp4" "boom" jobW wMiss rfl rfl rfl rfl rfl).1 rfl

end QuickScript
